import Mathlib

/-!
Verification of the changeset command module of katello-cli
(src/katello/client/core/changeset.py) against its specification.

The Python module is shallowly embedded: each command's run method becomes a
pure Lean function from the CLI options and a World of external lookup
oracles to a result together with the list of external API calls issued, in
the order the Python code issues them.  Raised exceptions (OptionValueError,
not-found errors from the lookup helpers) become explicit RunResult
constructors; a Python method that falls off the end returns None, modelled
as RunResult.ok none.
-/

namespace Katello

/-- Exit code os.EX_OK (0). -/
def EX_OK : Nat := 0

/-- Exit code os.EX_DATAERR (sysexits data-format error, 65). -/
def EX_DATAERR : Nat := 65

/-- Modelled from the spec: constants.PROMOTION (katello.client.constants is
not under src).  The promotion action-type literal; consistent with the
literal string comparison in PatchItemBuilder and the action types listed in
the spec data model. -/
def PROMOTION : String := "promotion"

/-- Modelled from the spec: constants.DELETION (katello.client.constants is
not under src).  The deletion action-type literal. -/
def DELETION : String := "deletion"

/-- A raw content-view reference collected by UpdateContent._store_item:
a one-key dictionary with key view_name, view_label or view_id, wrapping the
user-supplied string. -/
inductive ViewRef where
  | view_name (v : String)
  | view_label (v : String)
  | view_id (v : String)
  deriving DecidableEq

/-- A resolved patch element: the one-key dictionary produced by
AddPatchItemBuilder.content_view (key content_view_id) or by
RemovePatchItemBuilder.content_view (key content_id). -/
inductive PatchItem where
  | content_view_id (id : Nat)
  | content_id (id : Nat)
  deriving DecidableEq

/-- An environment record as returned by get_environment: the fields this
module reads are id, name and prior. -/
structure EnvRecord where
  id : Nat
  name : String
  prior : String
  deriving DecidableEq

/-- A changeset record as returned by get_changeset.  The module reads the
keys id and action_type (UpdateContent.run), and Promote.run additionally
probes for a key named type; typeKey models that entry, none meaning the key
is absent from the record. -/
structure CsetRecord where
  id : Nat
  action_type : String
  typeKey : Option String
  deriving DecidableEq

/-- One external call issued by the module, in the order of the source:
the lookup helpers get_environment / get_changeset / get_content_view and
the ChangesetAPI methods create / update / add_content / remove_content /
apply. -/
inductive ApiCall where
  | getEnvironment (org env : String)
  | getChangeset (org env name : String)
  | getContentView (org : String) (ref : ViewRef)
  | createCall (org : String) (envId : Nat) (name ty : String) (descr : Option String)
  | updateCall (csId : Nat) (newName descr : Option String)
  | addContent (csId : Nat) (contentType : String) (item : PatchItem)
  | removeContent (csId : Nat) (contentType : String) (item : PatchItem)
  | applyCall (csId : Nat)
  deriving DecidableEq

/-- The result of a command's run method: a normal return (ok, carrying the
returned exit code, or none when the Python method implicitly returns None),
a raised OptionValueError, or a raised not-found error from a lookup
helper. -/
inductive RunResult where
  | ok (code : Option Nat)
  | optionValueError
  | notFoundError
  deriving DecidableEq

/-- Modelled from the spec: the external collaborators of the module.
getEnvironment / getChangeset / getContentView are the Name Resolver helpers
(katello.client.api.utils, not under src): given an organization name and an
environment / changeset / content-view reference they return the
corresponding record, failing (none) when the name does not exist.
getContentView returns the id field of the looked-up view; its arguments are
exactly those the source passes (organization plus the reference - the call
site passes no environment).  applyTask gives the terminal status of the
asynchronous task of a given changeset id: true when the polled task reaches
success (Async Task Poller, katello.client.lib.async, not under src). -/
structure World where
  getEnvironment : String → String → Option EnvRecord
  getChangeset : String → String → String → Option CsetRecord
  getContentView : String → ViewRef → Option Nat
  applyTask : Nat → Bool

/-- Modelled from the spec: evaluate_task_status (katello.client.lib.async,
not under src) maps the terminal task status to an exit code - OK on
success, a non-zero code (modelled as 1) on failure. -/
def evaluate_task_status (succeeded : Bool) : Nat :=
  if succeeded then EX_OK else 1

/-- The six per-direction directive lists of UpdateContent.items, one per
dictionary key add_/remove_ x content_view/_label/_id. -/
structure Items where
  add_content_view : List ViewRef
  add_content_view_label : List ViewRef
  add_content_view_id : List ViewRef
  remove_content_view : List ViewRef
  remove_content_view_label : List ViewRef
  remove_content_view_id : List ViewRef
  deriving DecidableEq

/-- UpdateContent.reset_items: every one of the six directive lists is set
to the empty list. -/
def Items.reset : Items :=
  { add_content_view := []
    add_content_view_label := []
    add_content_view_id := []
    remove_content_view := []
    remove_content_view_label := []
    remove_content_view_id := [] }

/-- Dictionary access items[key] for the six directive keys of
UpdateContent.items. -/
def Items.get (items : Items) (key : String) : List ViewRef :=
  if key == "add_content_view" then items.add_content_view
  else if key == "add_content_view_label" then items.add_content_view_label
  else if key == "add_content_view_id" then items.add_content_view_id
  else if key == "remove_content_view" then items.remove_content_view
  else if key == "remove_content_view_label" then items.remove_content_view_label
  else if key == "remove_content_view_id" then items.remove_content_view_id
  else []

/-- The combined add-direction references of an item collection, in the
fixed name, label, id sub-list order used by build_patch. -/
def Items.addRefs (items : Items) : List ViewRef :=
  items.add_content_view ++ items.add_content_view_label
    ++ items.add_content_view_id

/-- The combined remove-direction references of an item collection, in the
fixed name, label, id sub-list order used by build_patch. -/
def Items.removeRefs (items : Items) : List ViewRef :=
  items.remove_content_view ++ items.remove_content_view_label
    ++ items.remove_content_view_id

/-- UpdateContent.PatchItemBuilder after __init__: the stored organization
name, the stored (re-resolved) environment name and the changeset action
type. -/
structure PatchItemBuilder where
  org_name : String
  env_name : String
  ty : String
  deriving DecidableEq

/-- UpdateContent.PatchItemBuilder.__init__: both branches look the
environment up; for a deletion changeset env_name becomes the environment's
own name, otherwise its prior.  A failed environment lookup raises
(modelled: none), and the get_environment call is recorded either way. -/
def PatchItemBuilder.init (w : World) (org_name env_name type_in : String) :
    Option PatchItemBuilder × List ApiCall :=
  (match w.getEnvironment org_name env_name with
   | none => none
   | some e =>
     some { org_name := org_name
            env_name := if type_in == "deletion" then e.name else e.prior
            ty := type_in },
   [ApiCall.getEnvironment org_name env_name])

/-- UpdateContent.PatchItemBuilder.content_view_id: looks the view up by
get_content_view(self.org_name, options) and returns its id field.  The
builder's env_name does not appear in the call, exactly as in the source. -/
def PatchItemBuilder.content_view_id (b : PatchItemBuilder) (w : World)
    (options : ViewRef) : Option Nat × List ApiCall :=
  (w.getContentView b.org_name options,
   [ApiCall.getContentView b.org_name options])

/-- UpdateContent.AddPatchItemBuilder.content_view: wraps the resolved id
under the key content_view_id. -/
def AddPatchItemBuilder.content_view (b : PatchItemBuilder) (w : World)
    (options : ViewRef) : Option PatchItem × List ApiCall :=
  let r := PatchItemBuilder.content_view_id b w options
  (r.1.map PatchItem.content_view_id, r.2)

/-- UpdateContent.RemovePatchItemBuilder.content_view: wraps the resolved id
under the key content_id. -/
def RemovePatchItemBuilder.content_view (b : PatchItemBuilder) (w : World)
    (options : ViewRef) : Option PatchItem × List ApiCall :=
  let r := PatchItemBuilder.content_view_id b w options
  (r.1.map PatchItem.content_id, r.2)

/-- The list comprehension of PatchBuilder.build_patch: resolves each
reference left to right through the item builder, stopping at the first
not-found failure (the raised exception aborts the comprehension); the trace
collects the lookup calls issued up to and including the failing one. -/
def resolveList
    (cv : PatchItemBuilder → World → ViewRef → Option PatchItem × List ApiCall)
    (b : PatchItemBuilder) (w : World) :
    List ViewRef → Option (List PatchItem) × List ApiCall
  | [] => (some [], [])
  | i :: rest =>
    match cv b w i with
    | (none, t) => (none, t)
    | (some p, t) =>
      match resolveList cv b w rest with
      | (none, t2) => (none, t ++ t2)
      | (some ps, t2) => (some (p :: ps), t ++ t2)

/-- UpdateContent.PatchBuilder.build_patch: a fresh dictionary receives the
single key content_views, bound to the item-builder resolution of the
concatenation items[action_content_view] ++ items[action_content_view_label]
++ items[action_content_view_id]. -/
def PatchBuilder.build_patch (w : World)
    (cv : PatchItemBuilder → World → ViewRef → Option PatchItem × List ApiCall)
    (b : PatchItemBuilder) (action : String) (items : Items) :
    Option (List (String × List PatchItem)) × List ApiCall :=
  match resolveList cv b w
      (items.get (action ++ "_content_view")
        ++ items.get (action ++ "_content_view_label")
        ++ items.get (action ++ "_content_view_id")) with
  | (none, t) => (none, t)
  | (some l, t) => (some [("content_views", l)], t)

/-- UpdateContent.update_content: for every key of the patch dictionary and
every item under it, one updateMethod(csId, contentType, item) call. -/
def UpdateContent.update_content (csId : Nat)
    (updateMethod : Nat → String → PatchItem → ApiCall) :
    List (String × List PatchItem) → List ApiCall
  | [] => []
  | (contentType, its) :: rest =>
    its.map (fun i => updateMethod csId contentType i)
      ++ UpdateContent.update_content csId updateMethod rest

/-- Exception plumbing for a lookup stage: a failing stage (none) aborts
with the not-found error and the calls issued so far; a successful stage
passes its value on, prepending the stage's calls to the continuation's. -/
def stepOpt {A : Type} (x : Option A × List ApiCall)
    (k : A → RunResult × List ApiCall) : RunResult × List ApiCall :=
  match x with
  | (none, t) => (RunResult.notFoundError, t)
  | (some a, t) => ((k a).1, t ++ (k a).2)

/-- Prepends already-issued calls to a stage result. -/
def withPrefix (pre : List ApiCall) (r : RunResult × List ApiCall) :
    RunResult × List ApiCall :=
  (r.1, pre ++ r.2)

/-- The body of UpdateContent.run after the initial copy and reset: fetches
the changeset, issues the rename/describe update call, builds the add patch
(AddPatchItemBuilder, whose construction looks the environment up) and then
the remove patch (RemovePatchItemBuilder, a second environment lookup), and
finally submits the add patch and then the remove patch through
update_content.  Returns the run result with its call trace in source
order; a raised not-found error anywhere aborts with the calls issued so
far. -/
def UpdateContent.runBody (w : World) (items : Items)
    (csName orgName envName : String) (csNewName csDescription : Option String) :
    RunResult × List ApiCall :=
  match w.getChangeset orgName envName csName with
  | none =>
    (RunResult.notFoundError, [ApiCall.getChangeset orgName envName csName])
  | some cset =>
    withPrefix [ApiCall.getChangeset orgName envName csName,
                ApiCall.updateCall cset.id csNewName csDescription]
      (stepOpt (PatchItemBuilder.init w orgName envName cset.action_type)
        fun ab =>
      stepOpt (PatchBuilder.build_patch w AddPatchItemBuilder.content_view
          ab "add" items)
        fun addPatch =>
      stepOpt (PatchItemBuilder.init w orgName envName cset.action_type)
        fun rb =>
      stepOpt (PatchBuilder.build_patch w RemovePatchItemBuilder.content_view
          rb "remove" items)
        fun removePatch =>
      (RunResult.ok (some EX_OK),
       UpdateContent.update_content cset.id ApiCall.addContent addPatch
         ++ UpdateContent.update_content cset.id ApiCall.removeContent removePatch))

/-- UpdateContent.run: first takes a copy of the collected directive lists
(items = self.items.copy()), then resets the stored collection
(self.reset_items()), and runs the body on the copy.  Returns the run result
with its call trace, together with the reset stored item state. -/
def UpdateContent.run (w : World) (selfItems : Items)
    (csName orgName envName : String) (csNewName csDescription : Option String) :
    (RunResult × List ApiCall) × Items :=
  let items := selfItems
  (UpdateContent.runBody w items csName orgName envName csNewName csDescription,
   Items.reset)

/-- Create.run: raises OptionValueError when both type flags are set (before
any lookup or API call); otherwise the type defaults to promotion, becoming
deletion only when exactly the deletion flag is set; then the environment is
resolved and one create call issued.  test_record only prints a message, so
the method returns EX_OK whenever create is reached. -/
def Create.run (w : World) (orgName envName csName : String)
    (csDescription : Option String) (type_promotion type_deletion : Bool) :
    RunResult × List ApiCall :=
  if type_promotion && type_deletion then
    (RunResult.optionValueError, [])
  else
    let csType := if type_promotion then PROMOTION
      else if type_deletion then DELETION
      else PROMOTION
    match w.getEnvironment orgName envName with
    | none => (RunResult.notFoundError, [ApiCall.getEnvironment orgName envName])
    | some env =>
      (RunResult.ok (some EX_OK),
       [ApiCall.getEnvironment orgName envName,
        ApiCall.createCall orgName env.id csName csType csDescription])

/-- Apply.run: fetches the changeset, issues one apply call, waits for the
asynchronous task (the spinner and poll loop live in external libraries; the
oracle gives the terminal status) and returns the evaluate_task_status exit
code. -/
def Apply.run (w : World) (csName orgName envName : String) :
    RunResult × List ApiCall :=
  match w.getChangeset orgName envName csName with
  | none => (RunResult.notFoundError, [ApiCall.getChangeset orgName envName csName])
  | some cset =>
    (RunResult.ok (some (evaluate_task_status (w.applyTask cset.id))),
     [ApiCall.getChangeset orgName envName csName, ApiCall.applyCall cset.id])

/-- Promote.run: fetches the changeset, and short-circuits with EX_DATAERR
when the record has a key named type equal to the deletion constant;
otherwise it invokes Apply.run (which fetches the changeset again) and
discards its value - the Python method then falls off the end, implicitly
returning None (modelled as RunResult.ok none). -/
def Promote.run (w : World) (csName orgName envName : String) :
    RunResult × List ApiCall :=
  match w.getChangeset orgName envName csName with
  | none => (RunResult.notFoundError, [ApiCall.getChangeset orgName envName csName])
  | some cset =>
    if (match cset.typeKey with
        | some t => t == DELETION
        | none => false) then
      (RunResult.ok (some EX_DATAERR), [ApiCall.getChangeset orgName envName csName])
    else
      (RunResult.ok none,
       ApiCall.getChangeset orgName envName csName
         :: (Apply.run w csName orgName envName).2)

/-- The parsed option state of an update invocation: the three required
string options, the optional rename/describe options, and for each of the
six repeatable content-view options whether it was supplied at least once. -/
structure UpdateOpts where
  name : Option String
  org : Option String
  environment : Option String
  new_name : Option String
  description : Option String
  add_content_view : Bool
  add_content_view_label : Bool
  add_content_view_id : Bool
  remove_content_view : Bool
  remove_content_view_label : Bool
  remove_content_view_id : Bool
  deriving DecidableEq

/-- Modelled from the spec: validator.mutually_exclude of the option
validator (katello.client.core.base, not under src) - the check passes iff
at most one of the listed options was supplied. -/
def mutually_exclude (flags : List Bool) : Bool :=
  decide ((flags.filter (fun b => b)).length ≤ 1)

/-- UpdateContent.check_options: require name, org and environment, and
mutually exclude the three add content-view kinds and the three remove
content-view kinds. -/
def UpdateContent.check_options (o : UpdateOpts) : Bool :=
  o.name.isSome && o.org.isSome && o.environment.isSome
    && mutually_exclude [o.add_content_view, o.add_content_view_label,
                         o.add_content_view_id]
    && mutually_exclude [o.remove_content_view, o.remove_content_view_label,
                         o.remove_content_view_id]

/-- Modelled from the spec: the framework around an action (katello.client
core.base, not under src) runs check_options before run, and an
option-validation failure is reported before any network call - run is then
never entered and the stored item state is untouched. -/
def UpdateContent.main (w : World) (o : UpdateOpts) (st : Items) :
    (RunResult × List ApiCall) × Items :=
  if UpdateContent.check_options o then
    UpdateContent.run w st (o.name.getD "") (o.org.getD "") (o.environment.getD "")
      o.new_name o.description
  else
    ((RunResult.optionValueError, []), st)

/-- Specification helper: left-to-right resolution of a list of content-view
references to their ids through the world's content-view lookup, failing as
soon as one reference is unknown. -/
def resolveIds (w : World) (org : String) : List ViewRef → Option (List Nat)
  | [] => some []
  | r :: rs =>
    match w.getContentView org r with
    | none => none
    | some i =>
      match resolveIds w org rs with
      | none => none
      | some is => some (i :: is)

/-- Whether an external call is an add_content submission. -/
def ApiCall.isAddContentCall : ApiCall → Bool
  | ApiCall.addContent _ _ _ => true
  | _ => false

/-- Whether an external call is a remove_content submission. -/
def ApiCall.isRemoveContentCall : ApiCall → Bool
  | ApiCall.removeContent _ _ _ => true
  | _ => false

/-- Whether an external call is an apply submission. -/
def ApiCall.isApplyCall : ApiCall → Bool
  | ApiCall.applyCall _ => true
  | _ => false

/-- Whether an external call mutates server state: the rename/describe
update call and the two content-patch submissions. -/
def ApiCall.isMutation : ApiCall → Bool
  | ApiCall.updateCall _ _ _ => true
  | ApiCall.addContent _ _ _ => true
  | ApiCall.removeContent _ _ _ => true
  | _ => false

/-- A concrete test world: one organization Acme with environment Dev
(id 7, prior Prod); changeset CS1 is promotion-typed (id 5) and CSD is
deletion-typed (id 6), both records carrying the action type under
action_type only, as the records read by UpdateContent.run and printed by
the List command do; content views CV1 (id 3), label L1 (id 4) and id 9
resolve, everything else is unknown; the apply task of changeset 5 succeeds
and every other task fails. -/
def w0 : World where
  getEnvironment := fun org env =>
    if org == "Acme" && env == "Dev" then some ⟨7, "Dev", "Prod"⟩ else none
  getChangeset := fun org env name =>
    if org == "Acme" && env == "Dev" && name == "CS1" then
      some ⟨5, "promotion", none⟩
    else if org == "Acme" && env == "Dev" && name == "CSD" then
      some ⟨6, "deletion", none⟩
    else none
  getContentView := fun org r =>
    if org == "Acme" then
      match r with
      | ViewRef.view_name v => if v == "CV1" then some 3 else none
      | ViewRef.view_label v => if v == "L1" then some 4 else none
      | ViewRef.view_id v => if v == "9" then some 9 else none
    else none
  applyTask := fun csId => csId == 5

/-- Two content-view reference kinds supplied simultaneously to the same
direction: one of the six possible pairs (name with label, name with id,
label with id, in the add or in the remove direction). -/
def twoKindsSameDirection (o : UpdateOpts) : Prop :=
  (o.add_content_view = true ∧ o.add_content_view_label = true)
  ∨ (o.add_content_view = true ∧ o.add_content_view_id = true)
  ∨ (o.add_content_view_label = true ∧ o.add_content_view_id = true)
  ∨ (o.remove_content_view = true ∧ o.remove_content_view_label = true)
  ∨ (o.remove_content_view = true ∧ o.remove_content_view_id = true)
  ∨ (o.remove_content_view_label = true ∧ o.remove_content_view_id = true)

/-- A concrete item collection: one add directive per reference kind (name
CV1, label L1, id 9) and one remove directive by name (CV1). -/
def st1 : Items :=
  { add_content_view := [ViewRef.view_name "CV1"]
    add_content_view_label := [ViewRef.view_label "L1"]
    add_content_view_id := [ViewRef.view_id "9"]
    remove_content_view := [ViewRef.view_name "CV1"]
    remove_content_view_label := []
    remove_content_view_id := [] }

/-- A concrete item collection whose remove directive names an unknown
content view. -/
def st2 : Items :=
  { add_content_view := [ViewRef.view_name "CV1"]
    add_content_view_label := []
    add_content_view_id := []
    remove_content_view := [ViewRef.view_name "NOPE"]
    remove_content_view_label := []
    remove_content_view_id := [] }

/-- A concrete update option state supplying both the by-name and the
by-label reference to the add direction. -/
def o1 : UpdateOpts :=
  { name := some "CS1"
    org := some "Acme"
    environment := some "Dev"
    new_name := none
    description := none
    add_content_view := true
    add_content_view_label := true
    add_content_view_id := false
    remove_content_view := false
    remove_content_view_label := false
    remove_content_view_id := false }

/-- Whether an external call is one of the three name-resolution lookups. -/
def ApiCall.isLookup : ApiCall → Bool
  | ApiCall.getEnvironment _ _ => true
  | ApiCall.getChangeset _ _ _ => true
  | ApiCall.getContentView _ _ => true
  | _ => false

lemma lookup_not_content (c : ApiCall) (h : c.isLookup = true) :
    c.isMutation = false ∧ c.isAddContentCall = false
      ∧ c.isRemoveContentCall = false := by
  cases c <;> simp_all [ApiCall.isLookup, ApiCall.isMutation,
    ApiCall.isAddContentCall, ApiCall.isRemoveContentCall]

lemma filter_mutation_of_lookups (l : List ApiCall)
    (h : ∀ c ∈ l, c.isLookup = true) : l.filter ApiCall.isMutation = [] := by
  induction l with
  | nil => rfl
  | cons a t ih =>
    have ha := (lookup_not_content a (h a (List.mem_cons_self a t))).1
    simp [List.filter_cons, ha, ih (fun c hc => h c (List.mem_cons_of_mem a hc))]

lemma all_no_content_of_lookups (l : List ApiCall)
    (h : ∀ c ∈ l, c.isLookup = true) :
    (l.all fun c => !c.isAddContentCall && !c.isRemoveContentCall) = true := by
  rw [List.all_eq_true]
  intro c hc
  have h2 := lookup_not_content c (h c hc)
  simp [h2.2.1, h2.2.2]

lemma add_content_view_eq (b : PatchItemBuilder) (w : World) (o : ViewRef) :
    AddPatchItemBuilder.content_view b w o
      = ((w.getContentView b.org_name o).map PatchItem.content_view_id,
         [ApiCall.getContentView b.org_name o]) := rfl

lemma remove_content_view_eq (b : PatchItemBuilder) (w : World) (o : ViewRef) :
    RemovePatchItemBuilder.content_view b w o
      = ((w.getContentView b.org_name o).map PatchItem.content_id,
         [ApiCall.getContentView b.org_name o]) := rfl

lemma resolveList_eq_of_resolveIds
    (cv : PatchItemBuilder → World → ViewRef → Option PatchItem × List ApiCall)
    (b : PatchItemBuilder) (w : World) (wrap : Nat → PatchItem)
    (hcv : ∀ o, cv b w o
      = ((w.getContentView b.org_name o).map wrap,
         [ApiCall.getContentView b.org_name o])) :
    ∀ (l : List ViewRef) (is : List Nat),
      resolveIds w b.org_name l = some is →
      resolveList cv b w l
        = (some (is.map wrap),
           l.map fun o => ApiCall.getContentView b.org_name o) := by
  intro l
  induction l with
  | nil =>
    intro is h
    simp only [resolveIds, Option.some.injEq] at h
    subst h
    rfl
  | cons r rs ih =>
    intro is h
    simp only [resolveIds] at h
    rcases hr : w.getContentView b.org_name r with _ | i
    · rw [hr] at h
      exact absurd h (by simp)
    · rw [hr] at h
      rcases hrs : resolveIds w b.org_name rs with _ | is2
      · rw [hrs] at h
        exact absurd h (by simp)
      · rw [hrs] at h
        simp only [Option.some.injEq] at h
        subst h
        simp only [resolveList, hcv r, hr, Option.map_some]
        rw [ih is2 hrs]
        simp

lemma resolveIds_eq_none_of_mem (w : World) (org : String) (l : List ViewRef)
    (r : ViewRef) (hmem : r ∈ l) (hr : w.getContentView org r = none) :
    resolveIds w org l = none := by
  induction l with
  | nil => cases hmem
  | cons a t ih =>
    rcases List.mem_cons.1 hmem with h | h
    · subst h
      simp only [resolveIds, hr]
    · simp only [resolveIds]
      rcases ha : w.getContentView org a with _ | i
      · rfl
      · rw [ih h]

lemma resolveIds_fst_of_resolveList
    (cv : PatchItemBuilder → World → ViewRef → Option PatchItem × List ApiCall)
    (b : PatchItemBuilder) (w : World) (wrap : Nat → PatchItem)
    (hcv : ∀ o, cv b w o
      = ((w.getContentView b.org_name o).map wrap,
         [ApiCall.getContentView b.org_name o])) :
    ∀ l : List ViewRef,
      (resolveList cv b w l).1 = (resolveIds w b.org_name l).map (List.map wrap) := by
  intro l
  induction l with
  | nil => rfl
  | cons r rs ih =>
    simp only [resolveList, resolveIds, hcv r]
    rcases hr : w.getContentView b.org_name r with _ | i
    · rfl
    · simp only [Option.map_some]
      rcases hrest : resolveList cv b w rs with ⟨fst, t2⟩
      rw [hrest] at ih
      rcases hids : resolveIds w b.org_name rs with _ | is2
      · rw [hids] at ih
        simp only [Option.map_none] at ih
        subst ih
        rfl
      · rw [hids] at ih
        simp only [Option.map_some] at ih
        subst ih
        rfl

lemma resolveList_trace_lookups
    (cv : PatchItemBuilder → World → ViewRef → Option PatchItem × List ApiCall)
    (b : PatchItemBuilder) (w : World) (wrap : Nat → PatchItem)
    (hcv : ∀ o, cv b w o
      = ((w.getContentView b.org_name o).map wrap,
         [ApiCall.getContentView b.org_name o])) :
    ∀ l : List ViewRef, ∀ c ∈ (resolveList cv b w l).2, c.isLookup = true := by
  intro l
  induction l with
  | nil => intro c hc; cases hc
  | cons r rs ih =>
    intro c hc
    simp only [resolveList] at hc
    rcases hcr : cv b w r with ⟨p, t⟩
    rw [hcr] at hc
    have ht : t = [ApiCall.getContentView b.org_name r] := by
      have h2 := hcv r
      rw [hcr] at h2
      exact congrArg Prod.snd h2
    subst ht
    cases p with
    | none =>
      have hc2 : c ∈ [ApiCall.getContentView b.org_name r] := hc
      rw [List.mem_singleton] at hc2
      subst hc2
      rfl
    | some p2 =>
      rcases hrest : resolveList cv b w rs with ⟨fst, t2⟩
      rw [hrest] at hc
      have ht2 : ∀ c2 ∈ t2, ApiCall.isLookup c2 = true := by
        intro c2 hc2
        exact ih c2 (by rw [hrest]; exact hc2)
      have hc2 : c ∈ ApiCall.getContentView b.org_name r :: t2 := by
        cases fst with
        | none => exact hc
        | some ps => exact hc
      rcases List.mem_cons.1 hc2 with h | h
      · subst h; rfl
      · exact ht2 c h

lemma patchItemBuilder_init_some (w : World) (org env ty : String)
    (e : EnvRecord) (henv : w.getEnvironment org env = some e) :
    PatchItemBuilder.init w org env ty
      = (some { org_name := org
                env_name := if ty == "deletion" then e.name else e.prior
                ty := ty },
         [ApiCall.getEnvironment org env]) := by
  unfold PatchItemBuilder.init
  rw [henv]

lemma patchItemBuilder_init_none (w : World) (org env ty : String)
    (henv : w.getEnvironment org env = none) :
    PatchItemBuilder.init w org env ty
      = (none, [ApiCall.getEnvironment org env]) := by
  unfold PatchItemBuilder.init
  rw [henv]

lemma build_patch_add_eq (w : World) (b : PatchItemBuilder) (items : Items)
    (is : List Nat) (hadd : resolveIds w b.org_name items.addRefs = some is) :
    PatchBuilder.build_patch w AddPatchItemBuilder.content_view b "add" items
      = (some [("content_views", is.map PatchItem.content_view_id)],
         items.addRefs.map fun o => ApiCall.getContentView b.org_name o) := by
  unfold PatchBuilder.build_patch
  rw [show (items.get ("add" ++ "_content_view")
        ++ items.get ("add" ++ "_content_view_label")
        ++ items.get ("add" ++ "_content_view_id")) = items.addRefs from rfl]
  rw [resolveList_eq_of_resolveIds AddPatchItemBuilder.content_view b w
    PatchItem.content_view_id (fun o => rfl) items.addRefs is hadd]

lemma build_patch_remove_eq (w : World) (b : PatchItemBuilder) (items : Items)
    (is : List Nat) (hrem : resolveIds w b.org_name items.removeRefs = some is) :
    PatchBuilder.build_patch w RemovePatchItemBuilder.content_view b "remove" items
      = (some [("content_views", is.map PatchItem.content_id)],
         items.removeRefs.map fun o => ApiCall.getContentView b.org_name o) := by
  unfold PatchBuilder.build_patch
  rw [show (items.get ("remove" ++ "_content_view")
        ++ items.get ("remove" ++ "_content_view_label")
        ++ items.get ("remove" ++ "_content_view_id")) = items.removeRefs from rfl]
  rw [resolveList_eq_of_resolveIds RemovePatchItemBuilder.content_view b w
    PatchItem.content_id (fun o => rfl) items.removeRefs is hrem]

lemma build_patch_fst_add (w : World) (b : PatchItemBuilder) (items : Items) :
    (PatchBuilder.build_patch w AddPatchItemBuilder.content_view b "add" items).1
      = (resolveIds w b.org_name items.addRefs).map
          (fun is => [("content_views", is.map PatchItem.content_view_id)]) := by
  unfold PatchBuilder.build_patch
  rw [show (items.get ("add" ++ "_content_view")
        ++ items.get ("add" ++ "_content_view_label")
        ++ items.get ("add" ++ "_content_view_id")) = items.addRefs from rfl]
  have h := resolveIds_fst_of_resolveList AddPatchItemBuilder.content_view b w
    PatchItem.content_view_id (fun o => rfl) items.addRefs
  rcases hres : resolveList AddPatchItemBuilder.content_view b w items.addRefs
    with ⟨fst, t⟩
  rw [hres] at h
  rcases hids : resolveIds w b.org_name items.addRefs with _ | is
  · rw [hids] at h
    simp only [Option.map_none] at h
    subst h
    rfl
  · rw [hids] at h
    simp only [Option.map_some] at h
    subst h
    rfl

lemma build_patch_fst_remove (w : World) (b : PatchItemBuilder) (items : Items) :
    (PatchBuilder.build_patch w RemovePatchItemBuilder.content_view b "remove" items).1
      = (resolveIds w b.org_name items.removeRefs).map
          (fun is => [("content_views", is.map PatchItem.content_id)]) := by
  unfold PatchBuilder.build_patch
  rw [show (items.get ("remove" ++ "_content_view")
        ++ items.get ("remove" ++ "_content_view_label")
        ++ items.get ("remove" ++ "_content_view_id")) = items.removeRefs from rfl]
  have h := resolveIds_fst_of_resolveList RemovePatchItemBuilder.content_view b w
    PatchItem.content_id (fun o => rfl) items.removeRefs
  rcases hres : resolveList RemovePatchItemBuilder.content_view b w items.removeRefs
    with ⟨fst, t⟩
  rw [hres] at h
  rcases hids : resolveIds w b.org_name items.removeRefs with _ | is
  · rw [hids] at h
    simp only [Option.map_none] at h
    subst h
    rfl
  · rw [hids] at h
    simp only [Option.map_some] at h
    subst h
    rfl

lemma build_patch_trace_lookups_add (w : World) (b : PatchItemBuilder)
    (items : Items) :
    ∀ c ∈ (PatchBuilder.build_patch w AddPatchItemBuilder.content_view b "add" items).2,
      c.isLookup = true := by
  intro c hc
  unfold PatchBuilder.build_patch at hc
  rcases hres : resolveList AddPatchItemBuilder.content_view b w
      (items.get ("add" ++ "_content_view")
        ++ items.get ("add" ++ "_content_view_label")
        ++ items.get ("add" ++ "_content_view_id")) with ⟨fst, t⟩
  rw [hres] at hc
  have ht : ∀ c2 ∈ t, ApiCall.isLookup c2 = true := by
    intro c2 hc2
    refine resolveList_trace_lookups AddPatchItemBuilder.content_view b w
      PatchItem.content_view_id (fun o => rfl)
      (items.get ("add" ++ "_content_view")
        ++ items.get ("add" ++ "_content_view_label")
        ++ items.get ("add" ++ "_content_view_id")) c2 ?_
    rw [hres]
    exact hc2
  cases fst with
  | none => exact ht c hc
  | some l => exact ht c hc

lemma build_patch_trace_lookups_remove (w : World) (b : PatchItemBuilder)
    (items : Items) :
    ∀ c ∈ (PatchBuilder.build_patch w RemovePatchItemBuilder.content_view b "remove" items).2,
      c.isLookup = true := by
  intro c hc
  unfold PatchBuilder.build_patch at hc
  rcases hres : resolveList RemovePatchItemBuilder.content_view b w
      (items.get ("remove" ++ "_content_view")
        ++ items.get ("remove" ++ "_content_view_label")
        ++ items.get ("remove" ++ "_content_view_id")) with ⟨fst, t⟩
  rw [hres] at hc
  have ht : ∀ c2 ∈ t, ApiCall.isLookup c2 = true := by
    intro c2 hc2
    refine resolveList_trace_lookups RemovePatchItemBuilder.content_view b w
      PatchItem.content_id (fun o => rfl)
      (items.get ("remove" ++ "_content_view")
        ++ items.get ("remove" ++ "_content_view_label")
        ++ items.get ("remove" ++ "_content_view_id")) c2 ?_
    rw [hres]
    exact hc2
  cases fst with
  | none => exact ht c hc
  | some l => exact ht c hc

lemma update_content_single_key (csId : Nat)
    (mk : Nat → String → PatchItem → ApiCall) (l : List PatchItem) :
    UpdateContent.update_content csId mk [("content_views", l)]
      = l.map fun i => mk csId "content_views" i := by
  simp [UpdateContent.update_content]

lemma filter_mutation_getcv_map (org : String) (l : List ViewRef) :
    ((l.map fun o => ApiCall.getContentView org o).filter ApiCall.isMutation) = [] := by
  induction l with
  | nil => rfl
  | cons a t ih => simp [List.filter_cons, ApiCall.isMutation, ih]

lemma filter_mutation_add_map (csId : Nat) (ct : String) (l : List PatchItem) :
    ((l.map fun i => ApiCall.addContent csId ct i).filter ApiCall.isMutation)
      = l.map fun i => ApiCall.addContent csId ct i := by
  induction l with
  | nil => rfl
  | cons a t ih => simp [List.filter_cons, ApiCall.isMutation, ih]

lemma filter_mutation_remove_map (csId : Nat) (ct : String) (l : List PatchItem) :
    ((l.map fun i => ApiCall.removeContent csId ct i).filter ApiCall.isMutation)
      = l.map fun i => ApiCall.removeContent csId ct i := by
  induction l with
  | nil => rfl
  | cons a t ih => simp [List.filter_cons, ApiCall.isMutation, ih]

lemma mutually_exclude_two_true (x : Bool) :
    mutually_exclude [true, true, x] = false
    ∧ mutually_exclude [true, x, true] = false
    ∧ mutually_exclude [x, true, true] = false := by
  cases x <;> exact ⟨rfl, rfl, rfl⟩

lemma stepOpt_none {A : Type} (t : List ApiCall)
    (k : A → RunResult × List ApiCall) :
    stepOpt ((none : Option A), t) k = (RunResult.notFoundError, t) := rfl

lemma stepOpt_some {A : Type} (a : A) (t : List ApiCall)
    (k : A → RunResult × List ApiCall) :
    stepOpt (some a, t) k = ((k a).1, t ++ (k a).2) := rfl

lemma stepOpt_none_fst {A : Type} (t : List ApiCall)
    (k : A → RunResult × List ApiCall) :
    (stepOpt ((none : Option A), t) k).1 = RunResult.notFoundError := rfl

lemma stepOpt_some_fst {A : Type} (a : A) (t : List ApiCall)
    (k : A → RunResult × List ApiCall) :
    (stepOpt (some a, t) k).1 = (k a).1 := rfl

lemma withPrefix_fst (pre : List ApiCall) (r : RunResult × List ApiCall) :
    (withPrefix pre r).1 = r.1 := rfl

lemma runBody_trace_classify (w : World) (st : Items)
    (csName orgName envName : String) (nn d : Option String)
    (hnf : (UpdateContent.runBody w st csName orgName envName nn d).1
      = RunResult.notFoundError) :
    ∀ c ∈ (UpdateContent.runBody w st csName orgName envName nn d).2,
      c.isLookup = true ∨ ∃ csId n2 d2, c = ApiCall.updateCall csId n2 d2 := by
  intro c hc
  rcases hcs : w.getChangeset orgName envName csName with _ | cset
  · simp only [UpdateContent.runBody, hcs, List.mem_singleton] at hc
    subst hc
    exact Or.inl rfl
  · rcases hinit : PatchItemBuilder.init w orgName envName cset.action_type
      with ⟨ob, ta⟩
    have hta : ta = [ApiCall.getEnvironment orgName envName] := by
      have h2 : (PatchItemBuilder.init w orgName envName cset.action_type).2
          = [ApiCall.getEnvironment orgName envName] := rfl
      rw [hinit] at h2
      exact h2
    subst hta
    cases ob with
    | none =>
      simp only [UpdateContent.runBody, hcs, hinit, stepOpt_none, withPrefix,
        List.mem_append, List.mem_cons, List.not_mem_nil, or_false,
        or_assoc] at hc
      rcases hc with hc | hc | hc
      · subst hc; exact Or.inl rfl
      · subst hc; exact Or.inr ⟨cset.id, nn, d, rfl⟩
      · subst hc; exact Or.inl rfl
    | some ab =>
      rcases hbpA : PatchBuilder.build_patch w AddPatchItemBuilder.content_view
          ab "add" st with ⟨pA, tap⟩
      have htap : ∀ c2 ∈ tap, ApiCall.isLookup c2 = true := by
        intro c2 hc2
        apply build_patch_trace_lookups_add w ab st
        rw [hbpA]
        exact hc2
      cases pA with
      | none =>
        simp only [UpdateContent.runBody, hcs, hinit, stepOpt_some, hbpA,
          stepOpt_none, withPrefix, List.mem_append, List.mem_cons,
          List.not_mem_nil, or_false, or_assoc] at hc
        rcases hc with hc | hc | hc | hc
        · subst hc; exact Or.inl rfl
        · subst hc; exact Or.inr ⟨cset.id, nn, d, rfl⟩
        · subst hc; exact Or.inl rfl
        · exact Or.inl (htap c hc)
      | some addPatch =>
        rcases hbpR : PatchBuilder.build_patch w
            RemovePatchItemBuilder.content_view ab "remove" st with ⟨pR, trp⟩
        have htrp : ∀ c2 ∈ trp, ApiCall.isLookup c2 = true := by
          intro c2 hc2
          apply build_patch_trace_lookups_remove w ab st
          rw [hbpR]
          exact hc2
        cases pR with
        | none =>
          simp only [UpdateContent.runBody, hcs, hinit, stepOpt_some, hbpA,
            hbpR, stepOpt_none, withPrefix, List.mem_append, List.mem_cons,
            List.not_mem_nil, or_false, or_assoc] at hc
          rcases hc with hc | hc | hc | hc | hc | hc
          · subst hc; exact Or.inl rfl
          · subst hc; exact Or.inr ⟨cset.id, nn, d, rfl⟩
          · subst hc; exact Or.inl rfl
          · exact Or.inl (htap c hc)
          · subst hc; exact Or.inl rfl
          · exact Or.inl (htrp c hc)
        | some removePatch =>
          exfalso
          simp only [UpdateContent.runBody, hcs, hinit, stepOpt_some, hbpA,
            hbpR, withPrefix_fst, stepOpt_some_fst] at hnf
          exact RunResult.noConfusion hnf

lemma runBody_notFound_no_content (w : World) (st : Items)
    (csName orgName envName : String) (nn d : Option String)
    (hnf : (UpdateContent.runBody w st csName orgName envName nn d).1
      = RunResult.notFoundError) :
    ((UpdateContent.runBody w st csName orgName envName nn d).2.all
      fun c => !c.isAddContentCall && !c.isRemoveContentCall) = true := by
  rw [List.all_eq_true]
  intro c hc
  rcases runBody_trace_classify w st csName orgName envName nn d hnf c hc
    with h | ⟨csId, n2, d2, h⟩
  · have h2 := lookup_not_content c h
    simp [h2.2.1, h2.2.2]
  · subst h
    rfl

lemma runBody_notFound_of_failure (w : World) (st : Items)
    (csName orgName envName : String) (nn d : Option String)
    (hfail : ∃ r ∈ st.addRefs ++ st.removeRefs,
      w.getContentView orgName r = none) :
    (UpdateContent.runBody w st csName orgName envName nn d).1
      = RunResult.notFoundError := by
  obtain ⟨r, hrm, hr⟩ := hfail
  rcases hcs : w.getChangeset orgName envName csName with _ | cset
  · simp only [UpdateContent.runBody, hcs]
  · rcases he : w.getEnvironment orgName envName with _ | e
    · simp only [UpdateContent.runBody, hcs,
        patchItemBuilder_init_none w orgName envName cset.action_type he,
        withPrefix_fst, stepOpt_none_fst]
    · have hinit := patchItemBuilder_init_some w orgName envName
        cset.action_type e he
      simp only [UpdateContent.runBody, hcs, hinit, withPrefix_fst,
        stepOpt_some_fst]
      rcases List.mem_append.1 hrm with hm | hm
      · have hids : resolveIds w orgName st.addRefs = none :=
          resolveIds_eq_none_of_mem w orgName st.addRefs r hm hr
        have hfst := build_patch_fst_add w
          ⟨orgName, if cset.action_type == "deletion" then e.name else e.prior,
           cset.action_type⟩ st
        have hids2 : resolveIds w
            (PatchItemBuilder.mk orgName
              (if cset.action_type == "deletion" then e.name else e.prior)
              cset.action_type).org_name st.addRefs = none := hids
        rw [hids2] at hfst
        rcases hbpA : PatchBuilder.build_patch w AddPatchItemBuilder.content_view
            ⟨orgName, if cset.action_type == "deletion" then e.name else e.prior,
             cset.action_type⟩ "add" st with ⟨pA, tap⟩
        rw [hbpA] at hfst
        have hpA : pA = none := hfst
        subst hpA
        simp only [hbpA, stepOpt_none_fst]
      · rcases hbpA : PatchBuilder.build_patch w AddPatchItemBuilder.content_view
            ⟨orgName, if cset.action_type == "deletion" then e.name else e.prior,
             cset.action_type⟩ "add" st with ⟨pA, tap⟩
        cases pA with
        | none => simp only [hbpA, stepOpt_none_fst]
        | some addPatch =>
          have hids : resolveIds w orgName st.removeRefs = none :=
            resolveIds_eq_none_of_mem w orgName st.removeRefs r hm hr
          have hfst := build_patch_fst_remove w
            ⟨orgName, if cset.action_type == "deletion" then e.name else e.prior,
             cset.action_type⟩ st
          have hids2 : resolveIds w
              (PatchItemBuilder.mk orgName
                (if cset.action_type == "deletion" then e.name else e.prior)
                cset.action_type).org_name st.removeRefs = none := hids
          rw [hids2] at hfst
          rcases hbpR : PatchBuilder.build_patch w
              RemovePatchItemBuilder.content_view
              ⟨orgName, if cset.action_type == "deletion" then e.name else e.prior,
               cset.action_type⟩ "remove" st with ⟨pR, trp⟩
          rw [hbpR] at hfst
          have hpR : pR = none := hfst
          subst hpR
          simp only [hbpA, stepOpt_some_fst, hinit, stepOpt_some, hbpR,
            stepOpt_none_fst]

lemma runBody_reset_no_content (w : World) (csName orgName envName : String)
    (nn d : Option String) :
    ((UpdateContent.runBody w Items.reset csName orgName envName nn d).2.all
      fun c => !c.isAddContentCall && !c.isRemoveContentCall) = true := by
  rcases hcs : w.getChangeset orgName envName csName with _ | cset
  · simp only [UpdateContent.runBody, hcs]
    rfl
  · rcases he : w.getEnvironment orgName envName with _ | e
    · simp only [UpdateContent.runBody, hcs,
        patchItemBuilder_init_none w orgName envName cset.action_type he,
        stepOpt_none, withPrefix]
      rfl
    · have hinit := patchItemBuilder_init_some w orgName envName
        cset.action_type e he
      have hbpA : PatchBuilder.build_patch w AddPatchItemBuilder.content_view
          ⟨orgName, if cset.action_type == "deletion" then e.name else e.prior,
           cset.action_type⟩ "add" Items.reset
          = (some [("content_views", [])], []) := rfl
      have hbpR : PatchBuilder.build_patch w RemovePatchItemBuilder.content_view
          ⟨orgName, if cset.action_type == "deletion" then e.name else e.prior,
           cset.action_type⟩ "remove" Items.reset
          = (some [("content_views", [])], []) := rfl
      simp only [UpdateContent.runBody, hcs, hinit, stepOpt_some, hbpA, hbpR,
        withPrefix, UpdateContent.update_content]
      rfl

/-- Claim C5: for every invocation of the create command in which both the
promotion and the deletion flag are set, an option-value error is raised and
no server call (neither the environment lookup nor the create API call) is
made - the raise precedes both, so the call trace is empty. -/
theorem create_both_type_flags (w : World) (orgName envName csName : String)
    (csDescription : Option String) :
    Create.run w orgName envName csName csDescription true true
      = (RunResult.optionValueError, []) := rfl

/-- Claim C6: create with neither type flag creates the changeset with the
promotion action type; with exactly one flag set it creates it with the
corresponding type (promotion, respectively deletion). -/
theorem create_action_type_selection (w : World)
    (orgName envName csName : String) (csDescription : Option String)
    (e : EnvRecord) (henv : w.getEnvironment orgName envName = some e) :
    Create.run w orgName envName csName csDescription false false
      = (RunResult.ok (some EX_OK),
         [ApiCall.getEnvironment orgName envName,
          ApiCall.createCall orgName e.id csName PROMOTION csDescription])
    ∧ Create.run w orgName envName csName csDescription true false
      = (RunResult.ok (some EX_OK),
         [ApiCall.getEnvironment orgName envName,
          ApiCall.createCall orgName e.id csName PROMOTION csDescription])
    ∧ Create.run w orgName envName csName csDescription false true
      = (RunResult.ok (some EX_OK),
         [ApiCall.getEnvironment orgName envName,
          ApiCall.createCall orgName e.id csName DELETION csDescription]) := by
  refine ⟨?_, ?_, ?_⟩ <;> simp [Create.run, henv]

/-- Witness for claim C6 at the concrete world w0. -/
theorem create_action_type_selection_witness :
    Create.run w0 "Acme" "Dev" "CS9" none false false
      = (RunResult.ok (some EX_OK),
         [ApiCall.getEnvironment "Acme" "Dev",
          ApiCall.createCall "Acme" 7 "CS9" PROMOTION none])
    ∧ Create.run w0 "Acme" "Dev" "CS9" none true false
      = (RunResult.ok (some EX_OK),
         [ApiCall.getEnvironment "Acme" "Dev",
          ApiCall.createCall "Acme" 7 "CS9" PROMOTION none])
    ∧ Create.run w0 "Acme" "Dev" "CS9" none false true
      = (RunResult.ok (some EX_OK),
         [ApiCall.getEnvironment "Acme" "Dev",
          ApiCall.createCall "Acme" 7 "CS9" DELETION none]) :=
  create_action_type_selection w0 "Acme" "Dev" "CS9" none ⟨7, "Dev", "Prod"⟩ rfl

/-- Claim C4: the patch item builder binds the environment it resolves
against by action type - for a deletion changeset the environment's own
name, for any other action type the environment's configured prior. -/
theorem patch_item_builder_environment (w : World) (org env ty : String)
    (e : EnvRecord) (b : PatchItemBuilder)
    (henv : w.getEnvironment org env = some e)
    (hb : (PatchItemBuilder.init w org env ty).1 = some b) :
    (ty = DELETION → b.env_name = e.name)
    ∧ (ty ≠ DELETION → b.env_name = e.prior) := by
  rw [patchItemBuilder_init_some w org env ty e henv] at hb
  simp only [Option.some.injEq] at hb
  subst hb
  constructor
  · intro h
    subst h
    rfl
  · intro h
    have hbeq : (ty == "deletion") = false := beq_eq_false_iff_ne.mpr h
    simp [hbeq]

/-- Witness for claim C4 at the concrete world w0 (deletion type). -/
theorem patch_item_builder_environment_witness :
    (("deletion" : String) = DELETION
        → (PatchItemBuilder.mk "Acme" "Dev" "deletion").env_name = "Dev")
    ∧ (("deletion" : String) ≠ DELETION
        → (PatchItemBuilder.mk "Acme" "Dev" "deletion").env_name = "Prod") :=
  patch_item_builder_environment w0 "Acme" "Dev" "deletion" ⟨7, "Dev", "Prod"⟩
    (PatchItemBuilder.mk "Acme" "Dev" "deletion") rfl rfl

/-- Claim C3: for either direction, build_patch returns a mapping with
exactly one key, content_views, holding the by-name, by-label and by-id
sub-lists concatenated in that fixed order (Items.addRefs / removeRefs),
each reference resolved to a content_view_id item in the add direction and
to a content_id item in the remove direction, preserving order. -/
theorem build_patch_content_views (w : World) (b : PatchItemBuilder)
    (items : Items) (ps qs : List Nat)
    (hadd : resolveIds w b.org_name items.addRefs = some ps)
    (hrem : resolveIds w b.org_name items.removeRefs = some qs) :
    (PatchBuilder.build_patch w AddPatchItemBuilder.content_view b "add" items).1
      = some [("content_views", ps.map PatchItem.content_view_id)]
    ∧ (PatchBuilder.build_patch w RemovePatchItemBuilder.content_view b "remove" items).1
      = some [("content_views", qs.map PatchItem.content_id)] := by
  constructor
  · rw [build_patch_add_eq w b items ps hadd]
  · rw [build_patch_remove_eq w b items qs hrem]

/-- Witness for claim C3 at the concrete world w0 and item collection st1. -/
theorem build_patch_content_views_witness :
    (PatchBuilder.build_patch w0 AddPatchItemBuilder.content_view
        (PatchItemBuilder.mk "Acme" "Prod" "promotion") "add" st1).1
      = some [("content_views", [3, 4, 9].map PatchItem.content_view_id)]
    ∧ (PatchBuilder.build_patch w0 RemovePatchItemBuilder.content_view
        (PatchItemBuilder.mk "Acme" "Prod" "promotion") "remove" st1).1
      = some [("content_views", [3].map PatchItem.content_id)] :=
  build_patch_content_views w0 (PatchItemBuilder.mk "Acme" "Prod" "promotion")
    st1 [3, 4, 9] [3] rfl rfl

/-- Claim C7: on a successful update invocation, the mutating calls issued
are exactly one rename/describe update call first, then one add_content call
per resolved add item in the name, label, id sub-list order, and afterwards
one remove_content call per resolved remove item in the same sub-list
order. -/
theorem update_api_call_sequence (w : World) (st : Items)
    (csName orgName envName : String) (nn d : Option String)
    (cset : CsetRecord) (e : EnvRecord) (ps qs : List Nat)
    (hcs : w.getChangeset orgName envName csName = some cset)
    (henv : w.getEnvironment orgName envName = some e)
    (hadd : resolveIds w orgName st.addRefs = some ps)
    (hrem : resolveIds w orgName st.removeRefs = some qs) :
    ((UpdateContent.run w st csName orgName envName nn d).1).2.filter
        ApiCall.isMutation
      = ApiCall.updateCall cset.id nn d
          :: (ps.map (fun i => ApiCall.addContent cset.id "content_views"
                (PatchItem.content_view_id i))
              ++ qs.map fun i => ApiCall.removeContent cset.id "content_views"
                (PatchItem.content_id i)) := by
  have hinit := patchItemBuilder_init_some w orgName envName
    cset.action_type e henv
  have hadd2 : resolveIds w
      (PatchItemBuilder.mk orgName
        (if cset.action_type == "deletion" then e.name else e.prior)
        cset.action_type).org_name st.addRefs = some ps := hadd
  have hrem2 : resolveIds w
      (PatchItemBuilder.mk orgName
        (if cset.action_type == "deletion" then e.name else e.prior)
        cset.action_type).org_name st.removeRefs = some qs := hrem
  have hbpA := build_patch_add_eq w
    ⟨orgName, if cset.action_type == "deletion" then e.name else e.prior,
     cset.action_type⟩ st ps hadd2
  have hbpR := build_patch_remove_eq w
    ⟨orgName, if cset.action_type == "deletion" then e.name else e.prior,
     cset.action_type⟩ st qs hrem2
  simp only [UpdateContent.run, UpdateContent.runBody, hcs, hinit,
    stepOpt_some, hbpA, hbpR, withPrefix, update_content_single_key]
  simp only [List.filter_append, List.filter_cons, List.filter_nil,
    ApiCall.isMutation, filter_mutation_getcv_map, filter_mutation_add_map,
    filter_mutation_remove_map]
  simp [List.map_map, Function.comp_def]

/-- Witness for claim C7 at the concrete world w0 and item collection st1. -/
theorem update_api_call_sequence_witness :
    ((UpdateContent.run w0 st1 "CS1" "Acme" "Dev" none none).1).2.filter
        ApiCall.isMutation
      = ApiCall.updateCall 5 none none
          :: ([3, 4, 9].map (fun i => ApiCall.addContent 5 "content_views"
                (PatchItem.content_view_id i))
              ++ [3].map fun i => ApiCall.removeContent 5 "content_views"
                (PatchItem.content_id i)) :=
  update_api_call_sequence w0 st1 "CS1" "Acme" "Dev" none none
    ⟨5, "promotion", none⟩ ⟨7, "Dev", "Prod"⟩ [3, 4, 9] [3] rfl rfl rfl rfl

/-- Claim C8: when resolving any content-view reference of either direction
fails with a not-found error, the whole update invocation aborts with the
not-found error and no add_content or remove_content call is issued for any
item. -/
theorem update_resolution_failure_no_patch (w : World) (st : Items)
    (csName orgName envName : String) (nn d : Option String)
    (hfail : ∃ r ∈ st.addRefs ++ st.removeRefs,
      w.getContentView orgName r = none) :
    ((UpdateContent.run w st csName orgName envName nn d).1).1
        = RunResult.notFoundError
    ∧ (((UpdateContent.run w st csName orgName envName nn d).1).2.all
        fun c => !c.isAddContentCall && !c.isRemoveContentCall) = true := by
  have h1 := runBody_notFound_of_failure w st csName orgName envName nn d hfail
  exact ⟨h1, runBody_notFound_no_content w st csName orgName envName nn d h1⟩

/-- Witness for claim C8 at the concrete world w0 and item collection st2,
whose remove directive names the unknown view NOPE. -/
theorem update_resolution_failure_no_patch_witness :
    ((UpdateContent.run w0 st2 "CS1" "Acme" "Dev" none none).1).1
        = RunResult.notFoundError
    ∧ (((UpdateContent.run w0 st2 "CS1" "Acme" "Dev" none none).1).2.all
        fun c => !c.isAddContentCall && !c.isRemoveContentCall) = true :=
  update_resolution_failure_no_patch w0 st2 "CS1" "Acme" "Dev" none none
    ⟨ViewRef.view_name "NOPE", by decide, by decide⟩

/-- Claim C9: supplying two different content-view reference kinds to the
same direction fails option validation, and the invocation then issues no
network call at all (empty trace) and leaves the stored items untouched. -/
theorem update_two_kinds_rejected (w : World) (o : UpdateOpts) (st : Items)
    (h : twoKindsSameDirection o) :
    UpdateContent.check_options o = false
    ∧ UpdateContent.main w o st = ((RunResult.optionValueError, []), st) := by
  have hco : UpdateContent.check_options o = false := by
    rcases h with ⟨h1, h2⟩ | ⟨h1, h2⟩ | ⟨h1, h2⟩ | ⟨h1, h2⟩ | ⟨h1, h2⟩ | ⟨h1, h2⟩
    · simp [UpdateContent.check_options, h1, h2,
        (mutually_exclude_two_true o.add_content_view_id).1]
    · simp [UpdateContent.check_options, h1, h2,
        (mutually_exclude_two_true o.add_content_view_label).2.1]
    · simp [UpdateContent.check_options, h1, h2,
        (mutually_exclude_two_true o.add_content_view).2.2]
    · simp [UpdateContent.check_options, h1, h2,
        (mutually_exclude_two_true o.remove_content_view_id).1]
    · simp [UpdateContent.check_options, h1, h2,
        (mutually_exclude_two_true o.remove_content_view_label).2.1]
    · simp [UpdateContent.check_options, h1, h2,
        (mutually_exclude_two_true o.remove_content_view).2.2]
  refine ⟨hco, ?_⟩
  simp [UpdateContent.main, hco]

/-- Witness for claim C9 at the concrete option state o1, which supplies
both the by-name and the by-label add reference. -/
theorem update_two_kinds_rejected_witness :
    UpdateContent.check_options o1 = false
    ∧ UpdateContent.main w0 o1 st1 = ((RunResult.optionValueError, []), st1) :=
  update_two_kinds_rejected w0 o1 st1 (Or.inl ⟨rfl, rfl⟩)

/-- Claim C10: every update run consumes a copy of the directive lists
collected so far (its result is a function of the pre-run item state) and
resets the stored collection, so the returned state has all six directive
lists empty, and any subsequent invocation starting from that state submits
no add_content or remove_content call. -/
theorem update_run_state_isolation (w : World) (st : Items)
    (csName orgName envName : String) (nn d : Option String) :
    (UpdateContent.run w st csName orgName envName nn d).2 = Items.reset
    ∧ (UpdateContent.run w st csName orgName envName nn d).2.add_content_view = []
    ∧ (UpdateContent.run w st csName orgName envName nn d).2.add_content_view_label = []
    ∧ (UpdateContent.run w st csName orgName envName nn d).2.add_content_view_id = []
    ∧ (UpdateContent.run w st csName orgName envName nn d).2.remove_content_view = []
    ∧ (UpdateContent.run w st csName orgName envName nn d).2.remove_content_view_label = []
    ∧ (UpdateContent.run w st csName orgName envName nn d).2.remove_content_view_id = []
    ∧ (UpdateContent.run w st csName orgName envName nn d).1
        = UpdateContent.runBody w st csName orgName envName nn d
    ∧ ∀ (w2 : World) (n2 o2 e2 : String) (nn2 d2 : Option String),
        (((UpdateContent.run w2
            (UpdateContent.run w st csName orgName envName nn d).2
            n2 o2 e2 nn2 d2).1).2.all
          fun c => !c.isAddContentCall && !c.isRemoveContentCall) = true := by
  refine ⟨rfl, rfl, rfl, rfl, rfl, rfl, rfl, rfl, ?_⟩
  intro w2 n2 o2 e2 nn2 d2
  exact runBody_reset_no_content w2 n2 o2 e2 nn2 d2

/-- Claim C1, code-bug evidence: on the world w0 the changeset CSD has the
deletion action type (carried, as everywhere else in this module, under the
record key action_type), yet Promote.run does not short-circuit: it issues
the apply call and returns None instead of EX_DATAERR, because its guard
probes the absent record key named type. -/
theorem promote_deletion_record_calls_apply :
    (w0.getChangeset "Acme" "Dev" "CSD").map CsetRecord.action_type
        = some DELETION
    ∧ Promote.run w0 "CSD" "Acme" "Dev"
        = (RunResult.ok none,
           [ApiCall.getChangeset "Acme" "Dev" "CSD",
            ApiCall.getChangeset "Acme" "Dev" "CSD", ApiCall.applyCall 6])
    ∧ (Promote.run w0 "CSD" "Acme" "Dev").1 ≠ RunResult.ok (some EX_DATAERR)
    ∧ ((Promote.run w0 "CSD" "Acme" "Dev").2.filter ApiCall.isApplyCall).length
        = 1 := by
  refine ⟨rfl, rfl, ?_, rfl⟩
  decide

/-- Claim C2, code-bug evidence: on the world w0 the promotion-type
changeset CS1 makes Promote.run issue the apply call exactly once and poll
the task like Apply.run, but Promote.run discards the superclass result and
returns None, while Apply.run returns the evaluate_task_status exit code -
so promote does not return the same result apply would. -/
theorem promote_discards_apply_exit_code :
    (w0.getChangeset "Acme" "Dev" "CS1").map CsetRecord.action_type
        = some PROMOTION
    ∧ (Apply.run w0 "CS1" "Acme" "Dev").1 = RunResult.ok (some EX_OK)
    ∧ (Promote.run w0 "CS1" "Acme" "Dev").1 = RunResult.ok none
    ∧ ((Promote.run w0 "CS1" "Acme" "Dev").2.filter ApiCall.isApplyCall).length
        = 1
    ∧ (Promote.run w0 "CS1" "Acme" "Dev").1 ≠ (Apply.run w0 "CS1" "Acme" "Dev").1 := by
  refine ⟨rfl, rfl, rfl, rfl, ?_⟩
  decide

end Katello
